import Mathlib

/-!
Verification of the intent-routing core of the `d-brain` personal-assistant
bot (Python sources under `src/d_brain/`).  The Python modules are shallowly
embedded: the pure classification / extraction functions of
`services/intent.py` become Lean functions over `List Char`, the result
formatting of `services/notion.py` and the subprocess-outcome normalisation
of `services/processor.py` become functions over explicit data types, and
the handler control flow of `bot/handlers/text.py` / `bot/handlers/voice.py`
becomes a function from the collaborator outcomes to the trace of replies
and log appends it performs.

Python's `re` module is embedded by a small executable regular-expression
engine (`RE` / `reSearch`) used for the boolean `re.search` calls, plus
dedicated matchers for the anchored prefix substitutions and the
group-capturing searches.  `str.lower()` / `str.strip()` / `str.isalpha()`
are modelled on the alphabet the program actually uses (ASCII + Cyrillic).
-/

namespace DBrain

/-- Python `str.lower()` restricted to one character, covering ASCII and the
Cyrillic range used by the bot ('А'..'Я' → 'а'..'я', 'Ё' → 'ё'). -/
def pyLower (c : Char) : Char :=
  if 'A' ≤ c ∧ c ≤ 'Z' then Char.ofNat (c.toNat + 32)
  else if 0x410 ≤ c.toNat ∧ c.toNat ≤ 0x42F then Char.ofNat (c.toNat + 0x20)
  else if c.toNat = 0x401 then Char.ofNat 0x451
  else c

/-- Python `\s` (whitespace class), modelled on ASCII whitespace. -/
def isPySpace (c : Char) : Bool :=
  c = ' ' ∨ c = '\t' ∨ c = '\n' ∨ c = '\r' ∨ c = '\x0b' ∨ c = '\x0c'

/-- Python `str.isalpha()` on the alphabet in use: ASCII letters and
Cyrillic letters (including 'ё'/'Ё'). -/
def isAlphaPy (c : Char) : Bool :=
  ('a' ≤ c ∧ c ≤ 'z') ∨ ('A' ≤ c ∧ c ≤ 'Z')
    ∨ (0x410 ≤ c.toNat ∧ c.toNat ≤ 0x44F)
    ∨ c.toNat = 0x401 ∨ c.toNat = 0x451

/-- Python regex word character (`\w`): letters, digits, underscore. -/
def isWordChar (c : Char) : Bool :=
  isAlphaPy c ∨ c.isDigit ∨ c = '_'

/-- Python `str.strip()`: drop whitespace from both ends. -/
def pyStrip (s : List Char) : List Char :=
  (s.dropWhile isPySpace).reverse.dropWhile isPySpace |>.reverse

/-- Regular-expression abstract syntax covering the constructs appearing in
the bot's patterns.  `cls chars ws` is a character class listing literal
members plus (when `ws = true`) the `\s` class; `rep0N n r` is `r{0,n}`;
`wb` is the word boundary `\b`. -/
inductive RE where
  | eps
  | chr (c : Char)
  | anyNotNl
  | ws
  | nonWs
  | cls (cs : List Char) (withWs : Bool)
  | seq (a b : RE)
  | alt (a b : RE)
  | opt (a : RE)
  | star (a : RE)
  | rep0N (n : Nat) (a : RE)
  | wb
  deriving Repr

namespace RE

/-- Structural size, used only to pick a sufficient fuel bound. -/
def size : RE → Nat
  | eps => 1
  | chr _ => 1
  | anyNotNl => 1
  | ws => 1
  | nonWs => 1
  | cls _ _ => 1
  | seq a b => size a + size b + 1
  | alt a b => size a + size b + 1
  | opt a => size a + 1
  | star a => size a + 1
  | rep0N n a => size a + n + 1
  | wb => 1

end RE

/-- Is the position between `prev` and `s` a regex word boundary? -/
def atBoundary (prev : Option Char) (s : List Char) : Bool :=
  let pw := match prev with | none => false | some c => isWordChar c
  let nw := match s with | [] => false | c :: _ => isWordChar c
  pw ≠ nw

/-- Does a single character match the given single-character regex node?
Literal and class characters are compared case-folded (the patterns are all
lower-case; classification lowers its input and the extraction patterns are
compiled with `re.IGNORECASE`). -/
def charMatches (r : RE) (x : Char) : Bool :=
  match r with
  | .chr c => pyLower x = c
  | .anyNotNl => x ≠ '\n'
  | .ws => isPySpace x
  | .nonWs => !isPySpace x
  | .cls cs withWs => cs.contains (pyLower x) || (withWs && isPySpace x)
  | _ => false

/-- CPS regex matcher: does `r` match some prefix of `s` (with `prev` the
character just before `s`, for word boundaries) such that the continuation
`k` accepts the remainder?  `fuel` strictly decreases on every recursive
call; callers supply a bound large enough for the pattern at hand. -/
def matchB (fuel : Nat) (r : RE) (prev : Option Char) (s : List Char)
    (k : Option Char → List Char → Bool) : Bool :=
  match fuel with
  | 0 => false
  | fuel + 1 =>
    match r with
    | .eps => k prev s
    | .chr _ | .anyNotNl | .ws | .nonWs | .cls _ _ =>
      match s with
      | [] => false
      | x :: xs => charMatches r x && k (some x) xs
    | .seq a b => matchB fuel a prev s (fun p' s' => matchB fuel b p' s' k)
    | .alt a b => matchB fuel a prev s k || matchB fuel b prev s k
    | .opt a => matchB fuel a prev s k || k prev s
    | .star a =>
      (matchB fuel a prev s (fun p' s' =>
        if s'.length < s.length then matchB fuel (.star a) p' s' k else false))
        || k prev s
    | .rep0N n a =>
      match n with
      | 0 => k prev s
      | n + 1 =>
        matchB fuel a prev s (fun p' s' => matchB fuel (.rep0N n a) p' s' k)
          || k prev s
    | .wb => atBoundary prev s && k prev s

/-- Fuel that is ample for matching `r` against a suffix of a string of
length `len` (the matcher's recursion depth is bounded by the pattern size
per consumed character plus one). -/
def reFuel (r : RE) (len : Nat) : Nat :=
  (len + 2) * (r.size + 2)

/-- Try a match of `r` at each successive position of `t` (`mf` is the
fuel handed to the matcher at every position). -/
def searchAux (r : RE) (mf : Nat) (prev : Option Char) (t : List Char) : Bool :=
  matchB mf r prev t (fun _ _ => true)
    || match t with
       | [] => false
       | x :: xs => searchAux r mf (some x) xs

/-- Model of `re.search(r, s)`: does `r` match at any position of `s`? -/
def reSearch (r : RE) (s : List Char) : Bool :=
  searchAux r (reFuel r s.length) none s

/-- Sequence a list of regexes. -/
def reSeq (l : List RE) : RE := l.foldr .seq .eps

/-- Alternation over a non-empty list of regexes (left-to-right, as in the
source patterns). -/
def reAlt : List RE → RE
  | [] => .eps
  | [r] => r
  | r :: rs => .alt r (reAlt rs)

/-- A literal word as a regex. -/
def lit (w : String) : RE := reSeq (w.toList.map .chr)

/-- Model of `\s+` -/
def wsPlus : RE := .seq .ws (.star .ws)

/-- Model of `services/intent.py`: the `Intent` enum. -/
inductive Intent where
  | CREATE_TASK
  | QUERY_TASKS
  | NOTION_ACTION
  | SAVE
  deriving DecidableEq, Repr

/-- Model of `services/intent.py`: the `QueryType` enum. -/
inductive QueryType where
  | OVERDUE
  | TODAY
  | TOMORROW
  | IN_PROGRESS
  | ALL
  deriving DecidableEq, Repr

/-- The `.value` string of a `QueryType` member. -/
def QueryType.value : QueryType → String
  | .OVERDUE => "overdue"
  | .TODAY => "today"
  | .TOMORROW => "tomorrow"
  | .IN_PROGRESS => "in_progress"
  | .ALL => "all"

/-- Model of `services/intent.py` `_CREATE_PATTERNS`, in source order. -/
def _CREATE_PATTERNS : List RE :=
  [ reSeq [.wb, reAlt [lit "добавь", lit "создай", lit "запиши",
        lit "поставь", lit "внеси"], wsPlus,
      reAlt [lit "задачу", lit "задание", lit "напоминание"], .wb],
    reSeq [.wb, lit "задача", .cls [':'] true, .star .ws, .nonWs],
    reSeq [.wb, lit "напомни", wsPlus, .opt (reSeq [lit "мне", wsPlus]),
      lit "о", .wb] ]

/-- Model of `services/intent.py` `_QUERY_PATTERNS`, in source order. -/
def _QUERY_PATTERNS : List RE :=
  [ reSeq [.wb, reAlt [lit "покажи",
        reSeq [lit "покаж", .opt (.chr 'и'), lit "те"],
        lit "отобрази", lit "выведи", lit "список"], wsPlus,
      .rep0N 30 .anyNotNl, reAlt [lit "задач", lit "задани"]],
    reSeq [.wb, lit "какие", wsPlus, .opt (reSeq [lit "у меня", wsPlus]),
      reAlt [lit "задач", lit "задани", lit "дела"], .wb],
    reSeq [.wb, reAlt [lit "просроченн", lit "незакрыт", lit "активн",
        lit "не сделан"], .wb, .rep0N 20 .anyNotNl, lit "задач"],
    reSeq [.wb, lit "задач", .rep0N 20 .anyNotNl,
      reAlt [lit "просроченн", lit "незакрыт", lit "активн"], .wb],
    reSeq [.wb, lit "что", wsPlus, .opt (reSeq [lit "у меня", wsPlus]),
      reAlt [lit "стоит", lit "есть", lit "висит", lit "осталось",
        lit "запланировано"], .wb],
    reSeq [.wb, lit "план", .opt (.chr 'ы'), wsPlus, lit "на", wsPlus,
      reAlt [lit "сегодня", lit "завтра", lit "неделю"], .wb],
    reSeq [.wb, reAlt [lit "найди", lit "найти", lit "поиск"], wsPlus,
      lit "задач"],
    reSeq [.wb, lit "задач", reAlt [.chr 'и', .chr 'у', .eps], wsPlus,
      .opt (reSeq [lit "на", wsPlus]),
      reAlt [lit "сегодня", lit "завтра", lit "эту неделю"], .wb],
    reSeq [.wb, lit "что", wsPlus, lit "надо", wsPlus,
      reAlt [lit "сделать", lit "успеть"], .wb] ]

/-- Model of `services/intent.py` `_ACTION_PATTERNS`, in source order. -/
def _ACTION_PATTERNS : List RE :=
  [ reSeq [.wb, reAlt [lit "отметь", lit "помети", lit "поставь"], wsPlus,
      .rep0N 40 .anyNotNl,
      reAlt [lit "выполнен", lit "готов", lit "сделан", lit "закрыт"]],
    reSeq [.wb, reAlt [reSeq [lit "выполнил", .opt (.cls ['а', 'и'] false)],
        reSeq [lit "сделал", .opt (.cls ['а', 'и'] false)],
        reSeq [lit "закрыл", .opt (.cls ['а', 'и'] false)]], wsPlus,
      reAlt [lit "задачу", lit "это", lit "её"], .wb],
    reSeq [.wb, lit "задача", wsPlus, .rep0N 40 .anyNotNl, wsPlus,
      reAlt [lit "выполнена", lit "готова", lit "сделана", lit "закрыта"],
      .wb],
    reSeq [.wb, lit "перенеси", wsPlus, .rep0N 60 .anyNotNl, wsPlus,
      lit "на", wsPlus],
    reSeq [.wb, reAlt [lit "измени", lit "обнови", lit "сдвинь"], wsPlus,
      reAlt [lit "дедлайн", lit "срок"], .wb],
    reSeq [.wb, lit "дедлайн", wsPlus, .rep0N 30 .anyNotNl,
      reAlt [lit "перенеси", lit "сдвинь", lit "измени", lit "поменяй"],
      .wb],
    reSeq [.wb, lit "поменяй", wsPlus, reAlt [lit "дедлайн", lit "срок"],
      .wb] ]

/-- Model of `classify`: first matching pattern group wins; `SAVE` is the default. -/
def classify (text : String) : Intent :=
  let t := text.toList.map pyLower
  if _CREATE_PATTERNS.any (fun p => reSearch p t) then .CREATE_TASK
  else if _QUERY_PATTERNS.any (fun p => reSearch p t) then .QUERY_TASKS
  else if _ACTION_PATTERNS.any (fun p => reSearch p t) then .NOTION_ACTION
  else .SAVE

/-- Model of `classify_query` pattern `\bпросрочен`. -/
def overdueRE : RE := reSeq [.wb, lit "просрочен"]

/-- Model of `classify_query` pattern `\bзавтра\b` (also `_TOMORROW_RE`). -/
def tomorrowWordRE : RE := reSeq [.wb, lit "завтра", .wb]

/-- Model of `classify_query` pattern `\bсегодня\b|\bсейчас\b|\bна\s+день\b`. -/
def todayGroupRE : RE :=
  reAlt [reSeq [.wb, lit "сегодня", .wb], reSeq [.wb, lit "сейчас", .wb],
    reSeq [.wb, lit "на", wsPlus, lit "день", .wb]]

/-- Model of `classify_query` pattern
`\b(в\s+процессе|in\s+progress|активн|незакрыт|не\s+сделан)\b`. -/
def inProgressRE : RE :=
  reSeq [.wb, reAlt [reSeq [lit "в", wsPlus, lit "процессе"],
    reSeq [lit "in", wsPlus, lit "progress"], lit "активн",
    lit "незакрыт", reSeq [lit "не", wsPlus, lit "сделан"]], .wb]

/-- Model of `classify_query`: cascade of scope patterns with `ALL` as fallback. -/
def classify_query (text : String) : QueryType :=
  let t := text.toList.map pyLower
  if reSearch overdueRE t then .OVERDUE
  else if reSearch tomorrowWordRE t then .TOMORROW
  else if reSearch todayGroupRE t then .TODAY
  else if reSearch inProgressRE t then .IN_PROGRESS
  else .ALL

/-- Case-folded literal prefix match: if `s` starts (after `pyLower`) with
the word `w`, return the rest of `s`. -/
def matchLit : List Char → List Char → Option (List Char)
  | [], s => some s
  | _ :: _, [] => none
  | c :: cs, x :: xs => if pyLower x = c then matchLit cs xs else none

/-- First literal of the alternation that matches a prefix of `s`
(the alternatives used in the anchored prefix patterns are pairwise
non-prefix, so this coincides with Python's leftmost-alternative rule). -/
def matchFirstLit (ws : List String) (s : List Char) : Option (List Char) :=
  ws.findSome? (fun w => matchLit w.toList s)

/-- Greedy `\s+`: strip a non-empty maximal run of whitespace. -/
def wsRun1 (s : List Char) : Option (List Char) :=
  match s with
  | [] => none
  | x :: xs => if isPySpace x then some (xs.dropWhile isPySpace) else none

/-- Membership in the `[,;:\s]` class of the trigger-suffix strip. -/
def isTrigSep (c : Char) : Bool :=
  c = ',' ∨ c = ';' ∨ c = ':' ∨ isPySpace c

/-- Model of `_TRIGGER_PREFIX.sub("", t)`: strip one anchored
`(добавь|создай|запиши|поставь|внеси)\s+(задачу|задание|напоминание)[,;:\s]*`
prefix; if the pattern does not match at position 0, `t` is unchanged. -/
def stripTriggerPref (t : List Char) : List Char :=
  match matchFirstLit ["добавь", "создай", "запиши", "поставь", "внеси"] t with
  | none => t
  | some r1 =>
    match wsRun1 r1 with
    | none => t
    | some r2 =>
      match matchFirstLit ["задачу", "задание", "напоминание"] r2 with
      | none => t
      | some r3 => r3.dropWhile isTrigSep

/-- Model of `_TASK_PREFIX.sub("", t)`: strip one anchored `задач[уа][,;:\s]*`
prefix. -/
def stripTaskPref (t : List Char) : List Char :=
  match matchLit "задач".toList t with
  | none => t
  | some r1 =>
    match r1 with
    | x :: xs =>
      if pyLower x = 'у' ∨ pyLower x = 'а' then xs.dropWhile isTrigSep else t
    | [] => t

/-- Model of `extract_task_name`: strip the intent trigger words. -/
def extract_task_name (text : String) : String :=
  let t := pyStrip text.toList
  let t := stripTriggerPref t
  let t := stripTaskPref t
  (pyStrip t).asString

/-- Model of `services/intent.py` `_KNOWN_PROJECTS`, in source (insertion) order. -/
def _KNOWN_PROJECTS : List (String × List String) :=
  [ ("Контент-завод", ["контент-завод", "контент завод"]),
    ("Видео", ["видео"]),
    ("Маркетинговые материалы", ["маркетинговые материалы"]),
    ("Стратегия", ["стратегия", "стратегию"]),
    ("Лидогенерация", ["лидогенерация", "лидогенерацию"]),
    ("Мероприятия", ["мероприятия", "мероприятие"]),
    ("Организации и ассоциации",
      ["организации и ассоциации", "организации", "ассоциации"]) ]

/-- Model of `_match_known_project`: longest known alias at the start of `text`
(strictly longer wins, first seen kept on ties), subject to a
word-boundary check (next character must not be a letter).  Returns the
canonical name and the matched length. -/
def _match_known_project (text : List Char) : Option String × Nat :=
  let low := text.map pyLower
  _KNOWN_PROJECTS.foldl (fun best pr =>
    pr.2.foldl (fun best al =>
      let a := al.toList
      if a.isPrefixOf low && decide (a.length > best.2) then
        if (match low.drop a.length with
            | [] => true
            | c :: _ => !isAlphaPy c) then
          (some pr.1, a.length)
        else best
      else best) best) (none, 0)

/-- Membership in the `[\s:—\-–,]` class of `_SEP_RE`. -/
def isSepFull (c : Char) : Bool :=
  isPySpace c ∨ c = ':' ∨ c = '—' ∨ c = '-' ∨ c = '–' ∨ c = ','

/-- Membership in the `[\s:—\-–]` split class (no comma). -/
def isSepSplit (c : Char) : Bool :=
  isPySpace c ∨ c = ':' ∨ c = '—' ∨ c = '-' ∨ c = '–'

/-- Model of `_SEP_RE.sub("", s, count=1)`: strip one anchored maximal run of the
separator class. -/
def sepSubOnce (s : List Char) : List Char :=
  match s with
  | [] => []
  | c :: _ => if isSepFull c then s.dropWhile isSepFull else s

/-- Model of `re.split(r"[\s:—\-–]+", s, maxsplit=1)`: the part before the first
separator run, and — when a run exists — the part after it. -/
def splitSepOnce (s : List Char) : List Char × Option (List Char) :=
  let before := s.takeWhile (fun c => !isSepSplit c)
  let rest0 := s.dropWhile (fun c => !isSepSplit c)
  match rest0 with
  | [] => (before, none)
  | _ => (before, some (rest0.dropWhile isSepSplit))

/-- Model of `_EXPLICIT_PROJECT_RE.match(t)`: anchored `в\s+проект[еу]?\s+` with the
optional-then-mandatory-whitespace backtracking of the Python engine;
returns the text after the matched span. -/
def expProjStrip (t : List Char) : Option (List Char) :=
  match matchLit "в".toList t with
  | none => none
  | some r1 =>
    match wsRun1 r1 with
    | none => none
    | some r2 =>
      match matchLit "проект".toList r2 with
      | none => none
      | some r3 =>
        match r3 with
        | x :: xs =>
          if pyLower x = 'е' ∨ pyLower x = 'у' then wsRun1 xs else wsRun1 r3
        | [] => none

/-- Model of `_IMPLICIT_IN_RE.match(t)`: anchored `в\s+`. -/
def implicitStrip (t : List Char) : Option (List Char) :=
  (matchLit "в".toList t).bind wsRun1

/-- Shared tail of both known-project branches of `extract_project`:
consume the separator run after the alias, strip, and discard the match
when the remainder is empty. -/
def projKnownBranch (t after : List Char) (proj : String) (len : Nat) :
    Option String × String :=
  if (pyStrip (sepSubOnce (after.drop len))).isEmpty then (none, t.asString)
  else (some proj, (pyStrip (sepSubOnce (after.drop len))).asString)

/-- The implicit `в <known_project>` step of `extract_project` (also
reached from the explicit branch when the split yields an empty head). -/
def implicitStep (t : List Char) : Option String × String :=
  match implicitStrip t with
  | some after =>
    match _match_known_project after with
    | (some proj, len) => projKnownBranch t after proj len
    | (none, _) => (none, t.asString)
  | none => (none, t.asString)

/-- Model of `extract_project` on the stripped character list: explicit
`в проект(е/у) X` (known table first, then ad-hoc single word), then
implicit `в <known_project>`. -/
def extract_projectCore (t : List Char) : Option String × String :=
  match expProjStrip t with
  | some after =>
    match _match_known_project after with
    | (some proj, len) => projKnownBranch t after proj len
    | (none, _) =>
      if (splitSepOnce after).1.isEmpty then implicitStep t
      else
        match (splitSepOnce after).2 with
        | some r2 =>
          if (pyStrip r2).isEmpty then (none, t.asString)
          else (some (pyStrip (splitSepOnce after).1).asString,
            (pyStrip r2).asString)
        | none => (none, t.asString)
  | none => implicitStep t

/-- Model of `extract_project`: strip the input and run the pattern cascade. -/
def extract_project (text : String) : Option String × String :=
  extract_projectCore (pyStrip text.toList)

/-- A Python `datetime.date` value (proleptic Gregorian calendar). -/
structure DateYMD where
  y : Nat
  m : Nat
  d : Nat
  deriving DecidableEq, Repr

/-- Gregorian leap year. -/
def isLeap (y : Nat) : Bool :=
  y % 4 = 0 && (y % 100 ≠ 0 || y % 400 = 0)

/-- Length of month `m` in year `y` (0 outside 1..12). -/
def daysInMonth (y m : Nat) : Nat :=
  match m with
  | 1 => 31 | 2 => if isLeap y then 29 else 28 | 3 => 31 | 4 => 30
  | 5 => 31 | 6 => 30 | 7 => 31 | 8 => 31 | 9 => 30 | 10 => 31
  | 11 => 30 | 12 => 31 | _ => 0

/-- Days before month `m` in a non-leap year. -/
def monthCum (m : Nat) : Nat :=
  match m with
  | 1 => 0 | 2 => 31 | 3 => 59 | 4 => 90 | 5 => 120 | 6 => 151
  | 7 => 181 | 8 => 212 | 9 => 243 | 10 => 273 | 11 => 304 | 12 => 334
  | _ => 0

/-- Days before month `m` in year `y`. -/
def daysBeforeMonth (y m : Nat) : Nat :=
  monthCum m + (if 3 ≤ m && isLeap y then 1 else 0)

/-- Days before January 1 of year `y` (proleptic Gregorian). -/
def daysBeforeYear (y : Nat) : Nat :=
  365 * (y - 1) + ((y - 1) / 4 - (y - 1) / 100 + (y - 1) / 400)

/-- Model of `date.toordinal()`: day 1 is 0001-01-01. -/
def toOrdinal (dt : DateYMD) : Nat :=
  daysBeforeYear dt.y + daysBeforeMonth dt.y dt.m + dt.d

/-- Model of `date.weekday()`: Monday = 0 (ordinal 1 is a Monday). -/
def pyWeekday (dt : DateYMD) : Nat :=
  (toOrdinal dt + 6) % 7

/-- Is the field triple a calendar date? -/
def validDate (dt : DateYMD) : Bool :=
  1 ≤ dt.y && 1 ≤ dt.m && dt.m ≤ 12 && 1 ≤ dt.d && dt.d ≤ daysInMonth dt.y dt.m

/-- The calendar successor of a date. -/
def nextDay (dt : DateYMD) : DateYMD :=
  if dt.d < daysInMonth dt.y dt.m then ⟨dt.y, dt.m, dt.d + 1⟩
  else if dt.m < 12 then ⟨dt.y, dt.m + 1, 1⟩
  else ⟨dt.y + 1, 1, 1⟩

/-- Model of `date + timedelta(days=n)`. -/
def addDays (dt : DateYMD) : Nat → DateYMD
  | 0 => dt
  | n + 1 => addDays (nextDay dt) n

/-- The `datetime.date(year, month, day)` constructor: `none` models the
`ValueError` on an invalid calendar date (and the 1..9999 year bounds). -/
def mkDate (y m d : Nat) : Option DateYMD :=
  if 1 ≤ y && y ≤ 9999 && 1 ≤ m && m ≤ 12 && 1 ≤ d && d ≤ daysInMonth y m
  then some ⟨y, m, d⟩ else none

/-- Model of `_TODAY_RE` (`\bсегодня\b`, IGNORECASE). -/
def _TODAY_RE : RE := reSeq [.wb, lit "сегодня", .wb]

/-- Model of `_TOMORROW_RE` (`\bзавтра\b`, IGNORECASE). -/
def _TOMORROW_RE : RE := reSeq [.wb, lit "завтра", .wb]

/-- Word boundary immediately after a word character. -/
def wbAfterWord (rest : List Char) : Bool :=
  match rest with
  | [] => true
  | c :: _ => !isWordChar c

/-- The alternatives of `_WEEKDAY_RE` in source order; `true` marks a
trailing optional `у?`. -/
def weekdayAlts : List (String × Bool) :=
  [("понедельник", false), ("вторник", false), ("сред", true),
   ("четверг", false), ("пятниц", true), ("суббот", true),
   ("воскресенье", false)]

/-- Try one `_WEEKDAY_RE` alternative at the current position, returning
the captured group text.  Greedy on the optional `у`, falling back only
when the trailing `\b` admits it (it never does after dropping a `у`
that is present, since `у` is a word character). -/
def tryWeekdayAlt (base : List Char) (optU : Bool) (t : List Char) :
    Option (List Char) :=
  match matchLit base t with
  | none => none
  | some rest =>
    match rest with
    | [] => some base
    | x :: xs =>
      if optU && (pyLower x = 'у') then
        if wbAfterWord xs then some (base ++ ['у']) else none
      else if !isWordChar x then some base else none

/-- Model of `_WEEKDAY_RE.search`: leftmost match, alternatives in order; returns
`m.group(1)`. -/
def weekdaySearchAux (prev : Option Char) (t : List Char) :
    Option (List Char) :=
  match (if atBoundary prev t then
          weekdayAlts.findSome? (fun a => tryWeekdayAlt a.1.toList a.2 t)
         else none) with
  | some g => some g
  | none =>
    match t with
    | [] => none
    | x :: xs => weekdaySearchAux (some x) xs

/-- Model of `_WEEKDAY_MAP` (the source dict, including the unreachable
`"среда": 1` entry). -/
def _WEEKDAY_MAP (g : List Char) : Option Nat :=
  if g = "понедельник".toList then some 0
  else if g = "вторник".toList then some 1
  else if g = "среда".toList then some 1
  else if g = "среду".toList then some 2
  else if g = "четверг".toList then some 3
  else if g = "пятница".toList then some 4
  else if g = "пятницу".toList then some 4
  else if g = "суббота".toList then some 5
  else if g = "субботу".toList then some 5
  else if g = "воскресенье".toList then some 6
  else none

/-- The weekday rule's result for the lowered text: the captured group
looked up in the map; `none` when the regex does not match or (e.g. for
the bare stem "сред") the group is not a dict key. -/
def weekdayTarget (low : List Char) : Option Nat :=
  (weekdaySearchAux none low).bind _WEEKDAY_MAP

/-- Model of `(target_wd - today.weekday()) % 7`, with `0` promoted to a full
week. -/
def daysAhead (target wd : Nat) : Nat :=
  if (((target : Int) - (wd : Int)) % 7).toNat = 0 then 7
  else (((target : Int) - (wd : Int)) % 7).toNat

/-- Take exactly `n` digits. -/
def takeDigits : Nat → List Char → Option (List Char × List Char)
  | 0, t => some ([], t)
  | _ + 1, [] => none
  | n + 1, x :: xs =>
    if x.isDigit then
      match takeDigits n xs with
      | some (ds, rest) => some (x :: ds, rest)
      | none => none
    else none

/-- Model of `[./]` -/
def isDotSlash (c : Char) : Bool := c = '.' ∨ c = '/'

/-- Try `_DATE_RE` at the current position (the leading `\b` having been
checked by the caller): `(\d{1,2})[./](\d{1,2})(?:[./](\d{2,4}))?\b`, with
the greedy group sizes and backtracking order of the Python engine.
Returns the day, month and optional year groups. -/
def tryDateAt (t : List Char) : Option (List Char × List Char × Option (List Char)) :=
  [2, 1].findSome? fun n1 =>
    match takeDigits n1 t with
    | none => none
    | some (dg, r1) =>
      match r1 with
      | [] => none
      | s :: r2 =>
        if isDotSlash s then
          [2, 1].findSome? fun n2 =>
            match takeDigits n2 r2 with
            | none => none
            | some (mg, r3) =>
              match r3 with
              | [] => some (dg, mg, none)
              | s2 :: r4 =>
                if isDotSlash s2 then
                  match ([4, 3, 2].findSome? fun n3 =>
                    match takeDigits n3 r4 with
                    | none => none
                    | some (yg, r5) =>
                      if wbAfterWord r5 then some (dg, mg, some yg)
                      else none) with
                  | some res => some res
                  | none => some (dg, mg, none)
                else if !isWordChar s2 then some (dg, mg, none) else none
        else none

/-- Model of `_DATE_RE.search`: leftmost match with the leading `\b`. -/
def dateSearchAux (prev : Option Char) (t : List Char) :
    Option (List Char × List Char × Option (List Char)) :=
  match (if atBoundary prev t then tryDateAt t else none) with
  | some r => some r
  | none =>
    match t with
    | [] => none
    | x :: xs => dateSearchAux (some x) xs

/-- Model of `int` on a digit group. -/
def parseDigits (ds : List Char) : Nat :=
  ds.foldl (fun a c => 10 * a + (c.toNat - 48)) 0

/-- Year resolution of the numeric rule: the year group if present, else
the current year; two-digit years are expanded by 2000. -/
def resolveYear (today : DateYMD) (yOpt : Option (List Char)) : Nat :=
  let year0 := match yOpt with
               | some yg => parseDigits yg
               | none => today.y
  if year0 < 100 then year0 + 2000 else year0

/-- The numeric `D.M[.YYYY]` rule of `extract_due_date`: construct the
date; an invalid calendar date is silently no match. -/
def dateRule (today : DateYMD) (cs : List Char) : Option DateYMD :=
  match dateSearchAux none cs with
  | some (dg, mg, yOpt) =>
    mkDate (resolveYear today yOpt) (parseDigits mg) (parseDigits dg)
  | none => none

/-- Model of `extract_due_date`: the rules in source priority order — literal
"сегодня", literal "завтра", weekday name, numeric date.  The weekday rule
falls through to the numeric rule when the regex matches but the captured
group is not a dict key. -/
def extract_due_date (today : DateYMD) (text : String) : Option DateYMD :=
  let cs := text.toList
  if reSearch _TODAY_RE cs then some today
  else if reSearch _TOMORROW_RE cs then some (addDays today 1)
  else
    match weekdayTarget (cs.map pyLower) with
    | some target => some (addDays today (daysAhead target (pyWeekday today)))
    | none => dateRule today cs

/-- A simplified task record as produced by `NotionClient.query_tasks`:
`{"name": ..., "status": ..., "due_date": ...}`. -/
structure NotionTask where
  name : String
  status : String
  due_date : String
  deriving DecidableEq, Repr

/-- Model of `services/notion.py` `_QUERY_LABELS`. -/
def _QUERY_LABELS : List (String × String) :=
  [("overdue", "🔴 Просроченные задачи"),
   ("today", "📅 Задачи на сегодня"),
   ("tomorrow", "📅 Задачи на завтра"),
   ("in_progress", "⏳ Задачи в процессе"),
   ("all", "📋 Активные задачи")]

/-- Model of `_QUERY_LABELS.get(query_type, "📋 Задачи")`. -/
def queryLabel (queryType : String) : String :=
  (_QUERY_LABELS.lookup queryType).getD "📋 Задачи"

/-- One task line of `_format_tasks_reply`. -/
def taskLine (queryType : String) (t : NotionTask) : String :=
  let due := if t.due_date ≠ "" then " <i>(" ++ t.due_date ++ ")</i>" else ""
  let st := if t.status ≠ "" ∧ queryType = "all" then " [" ++ t.status ++ "]"
            else ""
  "• " ++ t.name ++ due ++ st

/-- Model of `_format_tasks_reply`: the Telegram HTML rendering of a query
result. -/
def _format_tasks_reply (tasks : List NotionTask) (queryType : String) :
    String :=
  let label := queryLabel queryType
  if tasks.isEmpty then label ++ "\n\nЗадач нет 🎉"
  else
    let lines := ("<b>" ++ label ++ ":</b>")
      :: (tasks.map (taskLine queryType)
        ++ ["\n<i>Всего: " ++ toString tasks.length ++ "</i>"])
    String.intercalate "\n" lines

/-- A page of a Notion query response, reduced to the fields the client
reads: the `plain_text` pieces of the title property, the status name and
the due-date start (both already defaulted to `""` when missing). -/
structure NotionPage where
  titleParts : List String
  status : String
  due_date : String
  deriving DecidableEq, Repr

/-- The per-page body of the `query_tasks` result loop: join and trim the
title pieces, and skip the record when the name comes out empty. -/
def pageToTask (p : NotionPage) : Option NotionTask :=
  let name := (pyStrip (String.join p.titleParts).toList).asString
  if name = "" then none else some ⟨name, p.status, p.due_date⟩

/-- The record-processing part of `query_tasks` applied to the response's
`results` array. -/
def query_tasks_results (results : List NotionPage) : List NotionTask :=
  results.filterMap pageToTask

/-- The `limit` default of `query_tasks`, sent as the request
`page_size`. -/
def QUERY_PAGE_SIZE : Nat := 50

/-- The outcome of the `subprocess.run` call in `_run_claude`: normal
completion with an exit code, the hard timeout, a missing `claude` binary,
or any other exception (carrying `str(e)`). -/
inductive SubprocOutcome where
  | completed (returncode : Int) (stdout stderr : String)
  | timedOut
  | cliNotFound
  | raised (msg : String)
  deriving DecidableEq, Repr

/-- The result dict of `_run_claude`: an `"error"` or a `"report"` entry
plus `"processed_entries"`. -/
structure RunResult where
  error : Option String
  report : Option String
  processed_entries : Nat
  deriving DecidableEq, Repr

/-- Model of `services/processor.py` `DEFAULT_TIMEOUT` (seconds). -/
def DEFAULT_TIMEOUT : Nat := 1200

/-- Model of `_run_claude`: convert every subprocess outcome into a result dict —
no outcome escapes as an exception. -/
def _run_claude (outcome : SubprocOutcome) : RunResult :=
  match outcome with
  | .completed rc out err =>
    if rc ≠ 0 then
      ⟨some (if err ≠ "" then err else "Ошибка выполнения Claude"), none, 0⟩
    else ⟨none, some out.trim, 1⟩
  | .timedOut => ⟨some "Превышено время ожидания (20 мин)", none, 0⟩
  | .cliNotFound => ⟨some "Claude CLI не установлен", none, 0⟩
  | .raised msg => ⟨some msg, none, 0⟩

/-- Model of `bot/utils.py` `run_with_progress`, modelled on a discrete clock: the
work completes `workTime` seconds after start; the loop wakes every 30
seconds, exits once the work is done, and otherwise emits a status update
(recorded by its elapsed time).  Returns the update times. -/
def progressLoop (workTime elapsed : Nat) : List Nat :=
  if workTime ≤ elapsed then []
  else
    (if workTime ≤ elapsed + 30 then ([] : List Nat) else [elapsed + 30])
      ++ progressLoop workTime (elapsed + 30)
  termination_by workTime - elapsed
  decreasing_by omega

/-- Model of `run_with_progress`: the emitted updates paired with the value the
wrapped work returns (which is returned to the caller unchanged). -/
def run_with_progress {α : Type} (workTime : Nat) (v : α) : List Nat × α :=
  (progressLoop workTime 0, v)

/-- The collapsed user-visible replies of the text/voice handlers (their
wording is out of the spec's scope). -/
inductive BotReply where
  | createError
  | createSuccess
  | queryError
  | queryResult
  | actionStatus (isError : Bool)
  | saved
  | voiceSaved
  deriving DecidableEq, Repr

/-- What one handler invocation did: the replies sent, the
`storage.append_to_daily` calls (text, tag) and the `session.append`
calls (text). -/
structure HandlerTrace where
  replies : List BotReply
  daily : List (String × String)
  sessionLog : List String
  deriving DecidableEq, Repr

/-- The routing line shared by `handle_text` and `handle_voice`:
`classify(text) if settings.notion_token else Intent.SAVE` (an empty
token string is falsy). -/
def routedIntent (token text : String) : Intent :=
  if token ≠ "" then classify text else .SAVE

/-- Model of `bot/handlers/text.py` `handle_text` from the routing line onward:
`createOk` / `queryOk` say whether the Notion call of the corresponding
fast path succeeds, `actionResult` is the delegated path's result dict.
On a fast-path failure the handler replies and returns at once. -/
def handle_text (token text : String) (createOk queryOk : Bool)
    (actionResult : RunResult) : HandlerTrace :=
  match routedIntent token text with
  | .CREATE_TASK =>
    if createOk then ⟨[.createSuccess], [(text, "[text][task]")], [text]⟩
    else ⟨[.createError], [], []⟩
  | .QUERY_TASKS =>
    if queryOk then ⟨[.queryResult], [(text, "[text][query]")], [text]⟩
    else ⟨[.queryError], [], []⟩
  | .NOTION_ACTION =>
    ⟨[.actionStatus actionResult.error.isSome], [(text, "[text][action]")],
      [text]⟩
  | .SAVE => ⟨[.saved], [(text, "[text]")], [text]⟩

/-- Model of `bot/handlers/voice.py` `handle_voice` from the routing line onward
(after a successful transcription), including `_handle_create_task`,
`_handle_query_tasks` and `_handle_notion_action`. -/
def handle_voice (token transcript : String) (createOk queryOk : Bool)
    (actionResult : RunResult) : HandlerTrace :=
  match routedIntent token transcript with
  | .CREATE_TASK =>
    if createOk then
      ⟨[.createSuccess], [(transcript, "[voice][task]")], [transcript]⟩
    else ⟨[.createError], [], []⟩
  | .QUERY_TASKS =>
    if queryOk then
      ⟨[.queryResult], [(transcript, "[voice][query]")], [transcript]⟩
    else ⟨[.queryError], [], []⟩
  | .NOTION_ACTION =>
    ⟨[.actionStatus actionResult.error.isSome],
      [(transcript, "[voice][action]")], [transcript]⟩
  | .SAVE => ⟨[.voiceSaved], [(transcript, "[voice]")], [transcript]⟩

/-- Spec rendering of one record line, written from the spec's words:
the name, a due-date annotation only when the record has a due date, and
a status annotation only when the scope is `ALL`. -/
def specTaskLine (scope : String) (t : NotionTask) : String :=
  "• " ++ t.name
    ++ (if t.due_date = "" then "" else " <i>(" ++ t.due_date ++ ")</i>")
    ++ (if scope = "all" ∧ t.status ≠ "" then " [" ++ t.status ++ "]" else "")

/-- Spec rendering: one line per record, in order. -/
def specTaskLines (scope : String) : List NotionTask → List String
  | [] => []
  | t :: ts => specTaskLine scope t :: specTaskLines scope ts

/-- Spec rendering of a fast-read reply, written from the spec's words: a
"nothing found" message for zero matches, otherwise a scope-specific
header, one line per record, and a trailing count equal to the number of
records. -/
def specFormatReply (tasks : List NotionTask) (scope : String) : String :=
  if tasks.isEmpty then queryLabel scope ++ "\n\nЗадач нет 🎉"
  else
    String.intercalate "\n"
      (("<b>" ++ queryLabel scope ++ ":</b>")
        :: (specTaskLines scope tasks
          ++ ["\n<i>Всего: " ++ toString tasks.length ++ "</i>"]))

/-! ### Helper lemmas -/

lemma asString_ne_nil {l : List Char} (h : l.isEmpty = false) :
    l.asString ≠ "" := by
  cases l with
  | nil => simp at h
  | cons c cs =>
    intro hc
    have h2 := congrArg String.data hc
    simp [List.asString] at h2

lemma projKnownBranch_sound (t after : List Char) (proj : String)
    (len : Nat) :
    (projKnownBranch t after proj len).1 = none
      ∨ (projKnownBranch t after proj len).2 ≠ "" := by
  unfold projKnownBranch
  split
  · exact Or.inl rfl
  · next h => exact Or.inr (asString_ne_nil (by simpa using h))

lemma implicitStep_sound (t : List Char) :
    (implicitStep t).1 = none ∨ (implicitStep t).2 ≠ "" := by
  unfold implicitStep
  split
  · split
    · exact projKnownBranch_sound _ _ _ _
    · exact Or.inl rfl
  · exact Or.inl rfl

lemma progressLoop_nil {T e : Nat} (h : T ≤ e) : progressLoop T e = [] := by
  rw [progressLoop]
  simp [h]

lemma progressLoop_step {T e : Nat} (h : ¬ T ≤ e) :
    progressLoop T e
      = (if T ≤ e + 30 then [] else [e + 30]) ++ progressLoop T (e + 30) := by
  conv_lhs => rw [progressLoop]
  simp [h]

lemma progressLoop_mem_lt {T e u : Nat} (h : u ∈ progressLoop T e) :
    u < T := by
  by_cases hTe : T ≤ e
  · rw [progressLoop_nil hTe] at h
    simp at h
  · rw [progressLoop_step hTe] at h
    rcases List.mem_append.mp h with h1 | h2
    · by_cases h30 : T ≤ e + 30
      · simp [h30] at h1
      · simp [h30] at h1
        omega
    · exact progressLoop_mem_lt h2
  termination_by T - e
  decreasing_by omega

lemma taskLine_eq_spec (scope : String) (t : NotionTask) :
    taskLine scope t = specTaskLine scope t := by
  unfold taskLine specTaskLine
  by_cases hd : t.due_date = "" <;> by_cases hs : t.status = ""
    <;> by_cases ha : scope = "all" <;> simp [hd, hs, ha]

lemma map_taskLine_eq (scope : String) (ts : List NotionTask) :
    ts.map (taskLine scope) = specTaskLines scope ts := by
  induction ts with
  | nil => rfl
  | cons t ts ih => simp [specTaskLines, taskLine_eq_spec, ih]

/-! ### Claim theorems -/

/-- C4: when the structured-data token is not configured (empty, hence
falsy), both handlers skip classification and treat the utterance as the
archival default: the trace is exactly the save-path trace, so the
CREATE_TASK / QUERY_TASKS / delegated paths are unreachable. -/
theorem C4_no_token_routes_to_save (text : String) (createOk queryOk : Bool)
    (ar : RunResult) :
    routedIntent "" text = Intent.SAVE
    ∧ handle_text "" text createOk queryOk ar
        = ⟨[.saved], [(text, "[text]")], [text]⟩
    ∧ handle_voice "" text createOk queryOk ar
        = ⟨[.voiceSaved], [(text, "[voice]")], [text]⟩ := by
  have h : routedIntent "" text = Intent.SAVE := by simp [routedIntent]
  exact ⟨h, by simp [handle_text, h], by simp [handle_voice, h]⟩

/-- C5: `_run_claude` converts every subprocess outcome into exactly one
of the two result forms — an error dict (with a timeout-specific message
for the timeout) or a report dict — and never lets an exception
escape (it is a total function of the outcome). -/
theorem C5_run_claude_result_dichotomy (o : SubprocOutcome) :
    (((_run_claude o).error.isSome ∧ (_run_claude o).report = none)
      ∨ ((_run_claude o).error = none ∧ (_run_claude o).report.isSome))
    ∧ _run_claude .timedOut
        = ⟨some "Превышено время ожидания (20 мин)", none, 0⟩ := by
  refine ⟨?_, rfl⟩
  cases o with
  | completed rc out err =>
    by_cases h : rc ≠ 0 <;> simp [_run_claude, h]
  | timedOut => exact Or.inl (by simp [_run_claude])
  | cliNotFound => exact Or.inl (by simp [_run_claude])
  | raised m => exact Or.inl (by simp [_run_claude])

/-- C8: the fast-read formatter renders exactly what the spec describes —
the "nothing found" message for zero matches, otherwise a scope-specific
header, one line per record with name, optional due-date annotation and a
status annotation only for the `all` scope, and a trailing count equal to
the number of records. -/
theorem C8_format_tasks_reply_spec (tasks : List NotionTask)
    (scope : String) :
    _format_tasks_reply tasks scope = specFormatReply tasks scope := by
  unfold _format_tasks_reply specFormatReply
  by_cases h : tasks.isEmpty <;> simp [h, map_taskLine_eq]

/-- C9: `extract_project` never pairs an extracted project with an empty
task remainder — whenever it reports a project, the remaining task text
is non-empty (a match whose remainder strips to nothing is discarded). -/
theorem C9_extract_project_nonempty_remainder (text : String) :
    (extract_project text).1 = none ∨ (extract_project text).2 ≠ "" := by
  unfold extract_project extract_projectCore
  split
  · split
    · exact projKnownBranch_sound _ _ _ _
    · split
      · exact implicitStep_sound _
      · split
        · split
          · exact Or.inl rfl
          · next hr => exact Or.inr (asString_ne_nil (by simpa using hr))
        · exact Or.inl rfl
  · exact implicitStep_sound _

/-- C10: given a response that respects the requested page size (50), the
record-processing of `query_tasks` returns at most 50 records, and every
returned record has a non-empty name — pages with an empty title are
silently dropped. -/
theorem C10_query_tasks_bounded_nonempty_names (results : List NotionPage)
    (h : results.length ≤ QUERY_PAGE_SIZE) :
    (query_tasks_results results).length ≤ QUERY_PAGE_SIZE
    ∧ ∀ t ∈ query_tasks_results results, t.name ≠ "" := by
  constructor
  · exact le_trans (List.length_filterMap_le _ _) h
  · intro t ht
    obtain ⟨p, _, hp⟩ := List.mem_filterMap.mp ht
    simp only [pageToTask] at hp
    split at hp
    · simp at hp
    · next hn =>
      injection hp with h2
      subst h2
      simpa using hn

/-- C10 witness: a concrete two-page response in which the second page's
title strips to nothing. -/
theorem C10_query_tasks_witness :
    (query_tasks_results
        [⟨["Купить камеру"], "In progress", ""⟩, ⟨["  "], "Done", ""⟩]).length
      ≤ QUERY_PAGE_SIZE
    ∧ ∀ t ∈ query_tasks_results
        [⟨["Купить камеру"], "In progress", ""⟩, ⟨["  "], "Done", ""⟩],
        t.name ≠ "" :=
  C10_query_tasks_bounded_nonempty_names _ (by decide)

/-- C6: `run_with_progress` returns exactly the wrapped work's value; work
finishing within one 30-second interval emits zero status updates; work
spanning three intervals (60 < workTime ≤ 90) emits 2 (hence 2 or 3)
intermediate updates; and every update happens strictly before the work
completes — none after. -/
theorem C6_run_with_progress_updates {α : Type} (workTime : Nat) (v : α) :
    (run_with_progress workTime v).2 = v
    ∧ (workTime ≤ 30 → (run_with_progress workTime v).1 = [])
    ∧ (60 < workTime → workTime ≤ 90 →
        ((run_with_progress workTime v).1.length = 2
          ∨ (run_with_progress workTime v).1.length = 3))
    ∧ (∀ u ∈ (run_with_progress workTime v).1, u < workTime) := by
  refine ⟨rfl, ?_, ?_, ?_⟩
  · intro h30
    show progressLoop workTime 0 = []
    by_cases h0 : workTime ≤ 0
    · exact progressLoop_nil h0
    · rw [progressLoop_step h0]
      simp [h30, progressLoop_nil (show workTime ≤ 0 + 30 by omega)]
  · intro h60 h90
    refine Or.inl ?_
    show (progressLoop workTime 0).length = 2
    rw [progressLoop_step (show ¬ workTime ≤ 0 by omega),
      progressLoop_step (show ¬ workTime ≤ 0 + 30 by omega),
      progressLoop_step (show ¬ workTime ≤ 0 + 30 + 30 by omega),
      progressLoop_nil (show workTime ≤ 0 + 30 + 30 + 30 by omega)]
    simp [show ¬ workTime ≤ 0 + 30 by omega,
      show ¬ workTime ≤ 0 + 30 + 30 by omega,
      show workTime ≤ 0 + 30 + 30 + 30 by omega]
  · intro u hu
    exact progressLoop_mem_lt hu

/-- C6 witness: work lasting 70 seconds spans three intervals and emits
two updates; a 10-second work emits none. -/
theorem C6_run_with_progress_witness :
    ((run_with_progress 70 "done").1.length = 2
      ∨ (run_with_progress 70 "done").1.length = 3)
    ∧ (run_with_progress 10 "fast").1 = [] :=
  ⟨(C6_run_with_progress_updates 70 "done").2.2.1 (by norm_num) (by norm_num),
   (C6_run_with_progress_updates 10 "fast").2.1 (by norm_num)⟩

/-- C1 counterexample: a routed CREATE_TASK utterance whose Notion call
fails is answered with an error reply but is NOT appended to the session
log or the daily archive — the text handler returns before the appends
(the voice handler behaves the same), refuting the claim that every
execution path archives the utterance on collaborator failure. -/
theorem C1_fast_path_failure_drops_append :
    routedIntent "token" "добавь задачу тест" = Intent.CREATE_TASK
    ∧ (handle_text "token" "добавь задачу тест" false true
        ⟨none, some "", 1⟩).sessionLog = []
    ∧ (handle_text "token" "добавь задачу тест" false true
        ⟨none, some "", 1⟩).daily = []
    ∧ (handle_text "token" "добавь задачу тест" false true
        ⟨none, some "", 1⟩).replies = [.createError]
    ∧ (handle_voice "token" "добавь задачу тест" false true
        ⟨none, some "", 1⟩).sessionLog = [] := by
  decide

/-- C1 amended: the delegated and archival paths append the utterance to
the session log and daily archive unconditionally, but the fast-write and
fast-read paths append only when the collaborator call succeeds; on a
fast-path failure the handlers reply and return with no appends. -/
theorem C1_amended_appends_iff_not_fast_failure (token text : String)
    (createOk queryOk : Bool) (ar : RunResult) :
    (handle_text token text createOk queryOk ar).sessionLog
      = (if (routedIntent token text = Intent.CREATE_TASK ∧ createOk = false)
            ∨ (routedIntent token text = Intent.QUERY_TASKS ∧ queryOk = false)
         then [] else [text])
    ∧ (handle_text token text createOk queryOk ar).daily.length
      = (if (routedIntent token text = Intent.CREATE_TASK ∧ createOk = false)
            ∨ (routedIntent token text = Intent.QUERY_TASKS ∧ queryOk = false)
         then 0 else 1)
    ∧ (handle_voice token text createOk queryOk ar).sessionLog
      = (if (routedIntent token text = Intent.CREATE_TASK ∧ createOk = false)
            ∨ (routedIntent token text = Intent.QUERY_TASKS ∧ queryOk = false)
         then [] else [text])
    ∧ (handle_voice token text createOk queryOk ar).daily.length
      = (if (routedIntent token text = Intent.CREATE_TASK ∧ createOk = false)
            ∨ (routedIntent token text = Intent.QUERY_TASKS ∧ queryOk = false)
         then 0 else 1) := by
  cases h : routedIntent token text <;> cases createOk <;> cases queryOk
    <;> simp [handle_text, handle_voice, h]

/-- C2 counterexample: "напомни мне о встрече" contains the creation
trigger "напомни мне о" and classifies as CREATE_TASK, yet
`extract_task_name` returns it unchanged, so the result still contains
the trigger phrase. -/
theorem C2_napomni_trigger_not_stripped :
    classify "напомни мне о встрече" = Intent.CREATE_TASK
    ∧ extract_task_name "напомни мне о встрече" = "напомни мне о встрече"
    ∧ List.IsInfix "напомни мне о".toList
        (extract_task_name "напомни мне о встрече").toList := by
  decide

/-- C2 amended: every utterance matching a creation trigger pattern
classifies as CREATE_TASK (the creation group is checked first); however
`extract_task_name` strips only a leading verb+object trigger
("добавь/создай/запиши/поставь/внеси" + "задачу/задание/напоминание") or
a leading "задачу/задача", so the "напомни мне о" trigger is never
removed and the returned title can still contain a trigger phrase. -/
theorem C2_amended_create_trigger_classifies (text : String)
    (h : _CREATE_PATTERNS.any
        (fun p => reSearch p (text.toList.map pyLower)) = true) :
    classify text = Intent.CREATE_TASK := by
  simp only [classify, h]
  rfl

/-- C2 amended witness: a concrete creation utterance. -/
theorem C2_amended_witness :
    _CREATE_PATTERNS.any (fun p => reSearch p
        ("запиши напоминание полить цветы".toList.map pyLower)) = true
    ∧ classify "запиши напоминание полить цветы" = Intent.CREATE_TASK :=
  ⟨by decide, C2_amended_create_trigger_classifies _ (by decide)⟩

/-! ### Calendar lemmas for the due-date claims -/

lemma daysBeforeMonth_succ {y m : Nat} (hm1 : 1 ≤ m) (hm12 : m < 12) :
    daysBeforeMonth y (m + 1) = daysBeforeMonth y m + daysInMonth y m := by
  interval_cases m <;>
    simp [daysBeforeMonth, monthCum, daysInMonth] <;>
    cases hL : isLeap y <;> simp [hL]

lemma isLeap_iff {y : Nat} :
    isLeap y = true ↔ (y % 4 = 0 ∧ (y % 100 ≠ 0 ∨ y % 400 = 0)) := by
  simp [isLeap, Bool.and_eq_true, Bool.or_eq_true, decide_eq_true_eq]

set_option maxHeartbeats 1600000 in
lemma daysBeforeYear_succ (y : Nat) (hy : 1 ≤ y) :
    daysBeforeYear (y + 1)
      = daysBeforeYear y + 365 + (if isLeap y = true then 1 else 0) := by
  unfold daysBeforeYear
  cases hL : isLeap y with
  | false =>
    have hL2 : ¬ (y % 4 = 0 ∧ (y % 100 ≠ 0 ∨ y % 400 = 0)) := by
      rw [← isLeap_iff, hL]
      simp
    simp only [hL, Bool.false_eq_true, if_false]
    omega
  | true =>
    have hL2 := isLeap_iff.mp hL
    simp only [hL, if_true]
    omega

lemma toOrdinal_nextDay {dt : DateYMD} (h : validDate dt = true) :
    toOrdinal (nextDay dt) = toOrdinal dt + 1 := by
  obtain ⟨y, m, d⟩ := dt
  simp only [validDate, Bool.and_eq_true, decide_eq_true_eq] at h
  obtain ⟨⟨⟨⟨hy, hm1⟩, hm12⟩, hd1⟩, hd2⟩ := h
  unfold nextDay
  dsimp only
  split
  · simp only [toOrdinal]
    omega
  · next hge =>
    have hdim : d = daysInMonth y m := by omega
    split
    · next hlt12 =>
      have hstep := daysBeforeMonth_succ (y := y) hm1 hlt12
      simp only [toOrdinal]
      omega
    · next hge12 =>
      have hm : m = 12 := by omega
      subst hm
      have hd : d = 31 := by simpa [daysInMonth] using hdim
      subst hd
      simp only [toOrdinal]
      have e1 : daysBeforeMonth (y + 1) 1 = 0 := by
        simp [daysBeforeMonth, monthCum]
      have e2 : daysBeforeMonth y 12
          = 334 + (if isLeap y = true then 1 else 0) := by
        simp [daysBeforeMonth, monthCum]
      rw [e1, e2, daysBeforeYear_succ y hy]
      omega

lemma daysInMonth_pos {y m : Nat} (hm1 : 1 ≤ m) (hm12 : m ≤ 12) :
    1 ≤ daysInMonth y m := by
  interval_cases m <;> cases hL : isLeap y <;> simp [daysInMonth, hL]

lemma validDate_nextDay {dt : DateYMD} (h : validDate dt = true) :
    validDate (nextDay dt) = true := by
  obtain ⟨y, m, d⟩ := dt
  simp only [validDate, Bool.and_eq_true, decide_eq_true_eq] at h
  obtain ⟨⟨⟨⟨hy, hm1⟩, hm12⟩, hd1⟩, hd2⟩ := h
  unfold nextDay
  dsimp only
  split
  · next hlt =>
    simp only [validDate, Bool.and_eq_true, decide_eq_true_eq]
    omega
  · split
    · next hlt12 =>
      simp only [validDate, Bool.and_eq_true, decide_eq_true_eq]
      have := daysInMonth_pos (y := y) (m := m + 1) (by omega) (by omega)
      omega
    · simp only [validDate, Bool.and_eq_true, decide_eq_true_eq, daysInMonth]
      omega

lemma toOrdinal_addDays {dt : DateYMD} (h : validDate dt = true) (n : Nat) :
    toOrdinal (addDays dt n) = toOrdinal dt + n
      ∧ validDate (addDays dt n) = true := by
  induction n generalizing dt with
  | zero => exact ⟨rfl, h⟩
  | succ n ih =>
    have hnext := validDate_nextDay h
    obtain ⟨h1, h2⟩ := ih hnext
    refine ⟨?_, h2⟩
    show toOrdinal (addDays (nextDay dt) n) = toOrdinal dt + (n + 1)
    rw [h1, toOrdinal_nextDay h]
    omega

lemma weekdayMap_le6 {g : List Char} {t : Nat}
    (h : _WEEKDAY_MAP g = some t) : t ≤ 6 := by
  unfold _WEEKDAY_MAP at h
  repeat' split at h
  all_goals first
    | (injection h with h2; omega)
    | simp at h

lemma daysAhead_facts (target w : Nat) (ht : target ≤ 6) (hw : w ≤ 6) :
    1 ≤ daysAhead target w ∧ daysAhead target w ≤ 7
      ∧ (w + daysAhead target w) % 7 = target
      ∧ (w = target → daysAhead target w = 7) := by
  refine ⟨?_, ?_, ?_, ?_⟩ <;> (unfold daysAhead; split_ifs <;> omega)

/-- C3: whenever the weekday rule of `extract_due_date` fires (no earlier
rule matched and the captured weekday name is a map key), the result is
the next occurrence of that weekday strictly after today — between 1 and
7 days ahead, its weekday equals the named one, and when today already is
that weekday the result is today plus 7 days, never today. -/
theorem C3_weekday_rule_strictly_future (today : DateYMD) (text : String)
    (target : Nat) (hv : validDate today = true)
    (h1 : reSearch _TODAY_RE text.toList = false)
    (h2 : reSearch _TOMORROW_RE text.toList = false)
    (h3 : weekdayTarget (text.toList.map pyLower) = some target) :
    ∃ r, extract_due_date today text = some r
      ∧ toOrdinal today < toOrdinal r
      ∧ toOrdinal r ≤ toOrdinal today + 7
      ∧ pyWeekday r = target
      ∧ (pyWeekday today = target → toOrdinal r = toOrdinal today + 7) := by
  have hval : extract_due_date today text
      = some (addDays today (daysAhead target (pyWeekday today))) := by
    simp only [String.toList] at h1 h2 h3
    simp [extract_due_date, h1, h2, h3]
  have htarget : target ≤ 6 := by
    obtain ⟨g, _, hmap⟩ := Option.bind_eq_some.mp h3
    exact weekdayMap_le6 hmap
  have hw : pyWeekday today ≤ 6 := by
    unfold pyWeekday
    omega
  obtain ⟨hk1, hk7, hmod, hsame⟩ :=
    daysAhead_facts target (pyWeekday today) htarget hw
  obtain ⟨hord, _⟩ :=
    toOrdinal_addDays hv (daysAhead target (pyWeekday today))
  refine ⟨_, hval, ?_, ?_, ?_, ?_⟩
  · omega
  · omega
  · unfold pyWeekday at *
    omega
  · intro hpw
    rw [hord, hsame hpw]

/-- C3 witness: on Monday 2026-10-12, "в пятницу" resolves four days
ahead to the coming Friday. -/
theorem C3_weekday_rule_witness :
    ∃ r, extract_due_date ⟨2026, 10, 12⟩ "в пятницу" = some r
      ∧ toOrdinal ⟨2026, 10, 12⟩ < toOrdinal r
      ∧ toOrdinal r ≤ toOrdinal ⟨2026, 10, 12⟩ + 7
      ∧ pyWeekday r = 4
      ∧ (pyWeekday ⟨2026, 10, 12⟩ = 4 →
          toOrdinal r = toOrdinal ⟨2026, 10, 12⟩ + 7) :=
  C3_weekday_rule_strictly_future ⟨2026, 10, 12⟩ "в пятницу" 4
    (by decide) (by decide) (by decide) (by decide)

/-- C7: `extract_due_date` is a total function that applies its rules in
fixed priority order — literal today, literal tomorrow, weekday name,
numeric date — the first matching rule winning; and a numeric match that
forms an invalid calendar date (`mkDate` refuses it) yields `none`
rather than an error, as does no match at all. -/
theorem C7_due_date_rule_order_and_invalid (today : DateYMD)
    (text : String) :
    (reSearch _TODAY_RE text.toList = true →
      extract_due_date today text = some today)
    ∧ (reSearch _TODAY_RE text.toList = false →
        reSearch _TOMORROW_RE text.toList = true →
        extract_due_date today text = some (addDays today 1))
    ∧ (reSearch _TODAY_RE text.toList = false →
        reSearch _TOMORROW_RE text.toList = false →
        weekdayTarget (text.toList.map pyLower) = none →
        ∀ dg mg yOpt, dateSearchAux none text.toList = some (dg, mg, yOpt) →
          mkDate (resolveYear today yOpt) (parseDigits mg) (parseDigits dg)
            = none →
          extract_due_date today text = none)
    ∧ (reSearch _TODAY_RE text.toList = false →
        reSearch _TOMORROW_RE text.toList = false →
        weekdayTarget (text.toList.map pyLower) = none →
        dateSearchAux none text.toList = none →
        extract_due_date today text = none) := by
  refine ⟨?_, ?_, ?_, ?_⟩
  · intro h1
    simp only [String.toList] at h1
    simp [extract_due_date, h1]
  · intro h1 h2
    simp only [String.toList] at h1 h2
    simp [extract_due_date, h1, h2]
  · intro h1 h2 h3 dg mg yOpt h4 h5
    simp only [String.toList] at h1 h2 h3 h4
    simp [extract_due_date, h1, h2, h3, dateRule, h4, h5]
  · intro h1 h2 h3 h4
    simp only [String.toList] at h1 h2 h3 h4
    simp [extract_due_date, h1, h2, h3, dateRule, h4]

/-- C7 witness: "встреча 31.02" matches the numeric rule with the invalid
date February 31, and the whole extraction returns `none`. -/
theorem C7_due_date_witness :
    extract_due_date ⟨2026, 10, 12⟩ "встреча 31.02" = none :=
  (C7_due_date_rule_order_and_invalid ⟨2026, 10, 12⟩ "встреча 31.02").2.2.1
    (by decide) (by decide) (by decide) ['3', '1'] ['0', '2'] none
    (by decide) (by decide)

end DBrain
